import Mathlib

/-!
Verification development for the DAOS server-side erasure-coded object
aggregation engine (`src/object/srv_ec_aggregate.c`).

The C module is shallowly embedded: the pure bookkeeping of the stripe
state machine (`struct ec_agg_stripe`, carry-over computation, bitmap and
strategy selection, the arguments of the store calls and peer RPCs) is
translated into executable Lean functions over `Nat` values; 32-bit
unsigned C arithmetic is modelled with explicit `% 2^32` where the C
types make overflow observable.  Calls into external subsystems (VOS
fetch/update, the isa-l codec, Argobots eventuals, CaRT RPC transport)
are not computations of this module; their *status codes* are supplied
through an `Env` record, and their *arguments* (record ranges, epochs,
byte offsets, payloads) are computed by the model and recorded as
`AggAction` values, exactly in the order the C code issues the calls.
Allocation failures (`-DER_NOMEM` paths) and failures of the offload
machinery itself (`ABT_eventual_create`, `dss_ult_create`) are not
modelled separately: they surface through the same status variables as
any other failure of the corresponding step.
-/

/-- Object-class constants used by aggregation: `e_k` data cells, `e_p`
parity cells, `e_len` records per cell (`struct daos_oclass_attr`,
`u.ec`). -/
structure Oca where
  k : Nat
  p : Nat
  len : Nat
deriving Repr, DecidableEq

/-- A record extent: `daos_recx_t` (`rx_idx`, `rx_nr`). -/
structure Recx where
  rx_idx : Nat
  rx_nr : Nat
deriving Repr, DecidableEq

/-- A buffered replica extent of the open stripe
(`struct ec_agg_extent`: `ae_recx`, `ae_epoch`, `ae_hole`). -/
structure AggExtent where
  recx : Recx
  epoch : Nat
  hole : Bool
deriving Repr, DecidableEq

/-- The open stripe (`struct ec_agg_stripe`).  `dextents` is the
`as_dextents` list in iteration order. -/
structure AggStripe where
  stripenum : Nat
  hi_epoch : Nat
  dextents : List AggExtent
  stripe_fill : Nat
  extent_cnt : Nat
  offset : Nat
  prefix_ext : Nat
  suffix_ext : Nat
  has_holes : Bool
deriving Repr, DecidableEq

/-- The local parity extent found by the parity probe
(`struct ec_agg_par_extent`). -/
structure ParExtent where
  recx : Recx
  epoch : Nat
deriving Repr, DecidableEq

/-- An extent as delivered by the VOS recx iterator
(the fields of `vos_iter_entry_t` that `agg_data_extent` reads). -/
structure IterExtent where
  recx : Recx
  epoch : Nat
  hole : Bool
deriving Repr, DecidableEq

/-- Status codes of the external calls the module makes (VOS I/O, codec,
peer RPCs).  `0` means success; any other value is the error returned by
that call.  Each field corresponds to one call site in the C code. -/
structure Env where
  fetch_rc : Int
  encode_rc : Int
  lfetch_rc : Int
  ofetch_rc : Int
  rpar_rc : Int
  xor_rc : Int
  peer_rc : Int
  vupdate_rc : Int
  hfetch_rc : Int
  hrpc_rc : Int
  hupdate_rc : Int
  hremove_rc : Int
deriving Repr, DecidableEq

/-- An all-success environment. -/
def env0 : Env := ⟨0, 0, 0, 0, 0, 0, 0, 0, 0, 0, 0, 0⟩

/-- `~0UL` / `~(0ULL)`: the 64-bit all-ones value the C code uses both as
the "no parity found" sentinel for `ape_epoch` and as the "no open
stripe" sentinel for `as_stripenum`. -/
def UINT64_MAX : Nat := 2 ^ 64 - 1

/-- The modulus of C `unsigned int` arithmetic (32-bit). -/
def W32 : Nat := 2 ^ 32

/-- Modelled from the spec: `PARITY_INDICATOR` is "a reserved high-bit"
OR-ed into parity extent indices; the header defining it is not among
the sources, so it is taken as the high bit of the 64-bit record-index
space. -/
def PARITY_INDICATOR : Nat := 2 ^ 63

/-- Modelled from the spec: "A stripe spans `k·len` record indices on
data shards" — the helper `obj_ec_stripe_rec_nr` from the missing
`obj_ec.h` header. -/
def obj_ec_stripe_rec_nr (oca : Oca) : Nat := oca.k * oca.len

/-- `agg_stripenum`: the stripe number of the stripe containing `ex_lo`. -/
def agg_stripenum (oca : Oca) (ex_lo : Nat) : Nat :=
  ex_lo / obj_ec_stripe_rec_nr oca

/-- `agg_carry_over`: the number of records of the extent that lie in the
next stripe (0 when the extent does not cross its trailing stripe
boundary).  The `D_ASSERT(end_stripe - start_stripe == 1)` is not
modelled; claims only instantiate it on extents within its range. -/
def agg_carry_over (oca : Oca) (ext : AggExtent) : Nat :=
  let stripe_size := obj_ec_stripe_rec_nr oca
  let start_stripe := ext.recx.rx_idx / stripe_size
  let end_stripe := (ext.recx.rx_idx + ext.recx.rx_nr - 1) / stripe_size
  if start_stripe < end_stripe then
    ext.recx.rx_idx + ext.recx.rx_nr - end_stripe * stripe_size
  else 0

/-- `agg_get_carry_under`: walks `as_dextents` and, at the first extent
with a non-zero carry-over tail, returns `rx_nr - tail`; returns 0 when
no extent carries over. -/
def agg_get_carry_under (oca : Oca) : List AggExtent → Nat
  | [] => 0
  | ext :: rest =>
    let tail := agg_carry_over oca ext
    if tail ≠ 0 then ext.recx.rx_nr - tail else agg_get_carry_under oca rest

/-- Loop state of `agg_clear_extents`: the `as_prefix_ext` being built,
`ptail`, `carry_is_hole`, the surviving (trimmed) extents, and the
running `as_extent_cnt`. -/
structure ClearState where
  pre_ext : Nat
  ptail : Nat
  carry_is_hole : Bool
  kept : List AggExtent
  cnt : Nat
deriving Repr, DecidableEq

/-- One iteration of the `d_list_for_each_entry_safe` loop of
`agg_clear_extents`: an extent with a carry-over tail is trimmed to that
tail (and sets `as_prefix_ext`); every other extent is unlinked and
freed; any hole extent sets `carry_is_hole`. -/
def clear_step (oca : Oca) (s : ClearState) (ext : AggExtent) : ClearState :=
  let tail := agg_carry_over oca ext
  let cih := s.carry_is_hole || ext.hole
  if tail ≠ 0 then
    { pre_ext := ext.recx.rx_nr - tail
      ptail := tail
      carry_is_hole := cih
      kept := s.kept ++
        [{ ext with recx := { rx_idx := ext.recx.rx_idx + (ext.recx.rx_nr - tail)
                              rx_nr := tail } }]
      cnt := s.cnt }
  else
    { s with carry_is_hole := cih, cnt := s.cnt - 1 }

/-- `agg_clear_extents`: closes the processed stripe.  Re-seeds the open
stripe with the carry-over tail (if any), resets `as_offset`,
`as_hi_epoch`, sets `as_stripe_fill` to the tail length and
`as_has_holes` to whether any extent of the closed stripe was a hole. -/
def agg_clear_extents (oca : Oca) (st : AggStripe) : AggStripe :=
  let s := st.dextents.foldl (clear_step oca) ⟨0, 0, false, [], st.extent_cnt⟩
  { st with
    prefix_ext := s.pre_ext
    dextents := s.kept
    extent_cnt := s.cnt
    offset := 0
    hi_epoch := 0
    stripe_fill := s.ptail
    has_holes := s.carry_is_hole }

/-- `agg_data_is_newer`: true iff no buffered extent has an epoch below
the parity epoch. -/
def agg_data_is_newer (st : AggStripe) (ape_epoch : Nat) : Bool :=
  st.dextents.all (fun e => decide (ape_epoch ≤ e.epoch))

/-- `agg_stripe_is_filled`: the stripe is filled and, when parity is
present, all its extents are at epochs at or above the parity epoch. -/
def agg_stripe_is_filled (oca : Oca) (st : AggStripe) (ape_epoch : Nat)
    (has_parity : Bool) : Bool :=
  decide (st.stripe_fill = oca.k * oca.len) &&
    (!has_parity || agg_data_is_newer st ape_epoch)

/-- `agg_in_stripe`: the part of the recx that lies within its own
stripe. -/
def agg_in_stripe (oca : Oca) (r : Recx) : Nat :=
  let stripe := r.rx_idx / (oca.len * oca.k)
  let stripe_end := (stripe + 1) * oca.len * oca.k
  if stripe_end < r.rx_idx + r.rx_nr then stripe_end - r.rx_idx else r.rx_nr

/-- `agg_overlap`: whether the recx overlaps cell `cell` of stripe
`stripenum`. -/
def agg_overlap (recx : Recx) (cell k len stripenum : Nat) : Bool :=
  let cell_start := k * len * stripenum + len * cell
  (decide (cell_start ≤ recx.rx_idx) && decide (recx.rx_idx < cell_start + len)) ||
  (decide (recx.rx_idx ≤ cell_start) && decide (cell_start < recx.rx_idx + recx.rx_nr))

/-- `agg_full_cells`: for each cell `i < k`, the C test is
`i * len >= estart && estart - i * len + elen >= len` in `unsigned int`
arithmetic; the subtraction wraps modulo `2^32` when `i * len` exceeds
`estart + elen`.  Returns the updated bitmap (bit `i` set via `setbit`)
and the number of loop iterations whose test succeeded (the amount added
to `cell_cnt`).  The C variables are `unsigned int`, so callers supply
values below `2^32`. -/
def agg_full_cells (bit_map estart elen k len : Nat) : Nat × Nat :=
  (List.range k).foldl
    (fun s i =>
      if (i * len) % W32 ≥ estart ∧
          (estart + (W32 - (i * len) % W32) + elen) % W32 ≥ len then
        (Nat.lor s.1 (2 ^ i), s.2 + 1)
      else s)
    (bit_map, 0)

/-- Loop state of the extent-coalescing loop at the top of
`agg_process_partial_stripe`: `estart`, `elen`, the bitmap and the
running `cell_cnt`. -/
structure CoalesceState where
  estart : Nat
  elen : Nat
  bm : Nat
  cnt : Nat
deriving Repr, DecidableEq

/-- The extent-coalescing loop of `agg_process_partial_stripe`: glues
adjacent buffered extents into runs and accumulates `agg_full_cells`
over each run (`estart` starts at `as_offset`). -/
def agg_coalesce_full_cells (oca : Oca) (st : AggStripe) : Nat × Nat :=
  let s := st.dextents.foldl
    (fun (s : CoalesceState) ext =>
      if ext.recx.rx_idx = s.estart then
        { s with elen := ext.recx.rx_nr }
      else if ext.recx.rx_idx > s.elen then
        let fc := agg_full_cells s.bm s.estart s.elen oca.k oca.len
        { estart := ext.recx.rx_idx, elen := ext.recx.rx_nr
          bm := fc.1, cnt := s.cnt + fc.2 }
      else
        { s with elen := s.elen + ext.recx.rx_nr })
    ⟨st.offset, 0, 0, 0⟩
  let fc := agg_full_cells s.bm s.estart s.elen oca.k oca.len
  (fc.1, s.cnt + fc.2)

/-- The bitmap-rebuild loop of `agg_process_partial_stripe` (the
`else` branch): sets the bit of every cell some buffered extent
overlaps, stopping once `cell_cnt` reaches `k`.  `cell_cnt` counts
(cell, extent) overlap hits, as in the C code. -/
def agg_overlap_bitmap (oca : Oca) (st : AggStripe) : Nat × Nat :=
  (List.range oca.k).foldl
    (fun (s : Nat × Nat) i =>
      if s.2 < oca.k then
        st.dextents.foldl
          (fun (t : Nat × Nat) ext =>
            if t.2 = oca.k then t
            else if agg_overlap ext.recx i oca.k oca.len st.stripenum then
              (Nat.lor t.1 (2 ^ i), t.2 + 1)
            else t)
          s
      else s)
    (0, 0)

/-- The strategy-selection phase of `agg_process_partial_stripe`:
count "full" cells over the coalesced runs; if the count exceeds `k / 2`
keep that bitmap and recalculate (`asu_recalc = true`), otherwise
rebuild the bitmap from per-extent cell overlap and do an incremental
update.  Returns `(recalc, bit_map, cell_cnt)`. -/
def agg_choose_strategy (oca : Oca) (st : AggStripe) : Bool × Nat × Nat :=
  let fc := agg_coalesce_full_cells oca st
  if fc.2 > oca.k / 2 then (true, fc.1, fc.2)
  else
    let ov := agg_overlap_bitmap oca st
    (false, ov.1, ov.2)

/-- The remote fetch issued by `agg_fetch_odata_cells`: one `len`-record
recx per set bit of the bitmap, read through `dsc_obj_fetch` into the
`ODATA` buffer slot at the parity epoch (update) or the stripe's high
epoch (recalc). -/
structure OdataFetch where
  recxs : List Recx
  epoch : Nat
deriving Repr, DecidableEq

/-- `agg_fetch_odata_cells`: builds the recx list from the bitmap and
selects the fetch epoch — `as_hi_epoch` when `is_recalc`, otherwise the
parity extent's epoch. -/
def agg_fetch_odata_cells (oca : Oca) (st : AggStripe) (ape_epoch : Nat)
    (bit_map : Nat) (is_recalc : Bool) : OdataFetch :=
  { recxs := (List.range oca.k).filterMap (fun i =>
      if bit_map.testBit i then
        some { rx_idx := st.stripenum * oca.k * oca.len + i * oca.len
               rx_nr := oca.len }
      else none)
    epoch := if is_recalc then st.hi_epoch else ape_epoch }

/-- `agg_encode_full_stripe`: waits for the encode offload and returns
its status word (also covering failures of the offload machinery
itself). -/
def agg_encode_full_stripe_rc (env : Env) : Int := env.encode_rc

/-- `agg_encode_local_parity`: fetches the full data stripe, then calls
`agg_encode_full_stripe`.  As in the C source, the return value of
`agg_encode_full_stripe` is discarded: the function returns the fetch
status only. -/
def agg_encode_local_parity_rc (env : Env) : Int :=
  if env.fetch_rc ≠ 0 then env.fetch_rc
  else
    let _ := agg_encode_full_stripe_rc env
    0

/-- `agg_process_partial_stripe`: strategy selection, then the local VOS
fetch, then the offloaded chain (ODATA fetch, remote parity fetch when
`p > 1`, and — on the update path only — the `xor_gen` incremental
update; `agg_recalc_parity` returns no status).  Only the status
propagation of the external calls is modelled; the Reed–Solomon math is
external (isa-l). -/
def agg_process_partial_stripe_rc (oca : Oca) (env : Env) (st : AggStripe) : Int :=
  let c := agg_choose_strategy oca st
  if env.lfetch_rc ≠ 0 then env.lfetch_rc
  else if env.ofetch_rc ≠ 0 then env.ofetch_rc
  else if oca.p > 1 ∧ env.rpar_rc ≠ 0 then env.rpar_rc
  else if c.1 then 0 else env.xor_rc

/-- The fields of the `EC_AGGREGATE` peer parity-write request that
`agg_peer_update_ult` fills from the stripe, plus the bulk buffer
placement: the C code points the bulk iov at byte offset
`e_len` of the parity buffer (`&buf[entry->ae_oca->u.ec.e_len]`) with
length `e_len * rsize` bytes. -/
structure PeerUpdateRpc where
  bulk_off : Nat
  bulk_len : Nat
  prior_len : Nat
  after_len : Nat
  epoch : Nat
  stripenum : Nat
deriving Repr, DecidableEq

/-- `agg_peer_update_ult`: the request payload and bulk placement. -/
def agg_peer_update_ult (oca : Oca) (rsize : Nat) (st : AggStripe) : PeerUpdateRpc :=
  { bulk_off := oca.len
    bulk_len := oca.len * rsize
    prior_len := st.prefix_ext
    after_len := st.suffix_ext
    epoch := st.hi_epoch
    stripenum := st.stripenum }

/-- Byte offset of parity-buffer cell `i` as laid out by
`agg_encode_full_stripe_ult` (`parity_bufs[i] = &buf[i * cell_bytes]`
with `cell_bytes = len * rsize`); index 0 is the leader's cell, index 1
the peer's. -/
def parity_cell_offset (oca : Oca) (rsize i : Nat) : Nat := i * (oca.len * rsize)

/-- The two store calls of `agg_update_vos`: the data-range removal
(recx and epoch range) and the parity write (recx and epoch). -/
structure VosUpdate where
  rm_recx : Recx
  rm_epr_lo : Nat
  rm_epr_hi : Nat
  wr_recx : Recx
  wr_epoch : Nat
deriving Repr, DecidableEq

/-- `agg_update_vos`: removes
`rx_idx = stripenum*k*len - prefix_ext`,
`rx_nr = k*len + prefix_ext - suffix_ext` over epochs `[0, hi_epoch]`,
then writes the `len`-record parity cell at
`(stripenum*len) | PARITY_INDICATOR` at epoch `hi_epoch`.  (In the C
code the removal's return code is overwritten by the update's; both
calls are always issued.) -/
def agg_update_vos (oca : Oca) (st : AggStripe) : VosUpdate :=
  { rm_recx := { rx_idx := st.stripenum * oca.k * oca.len - st.prefix_ext
                 rx_nr := oca.k * oca.len + st.prefix_ext - st.suffix_ext }
    rm_epr_lo := 0
    rm_epr_hi := st.hi_epoch
    wr_recx := { rx_idx := Nat.lor (st.stripenum * oca.len) PARITY_INDICATOR
                 rx_nr := oca.len }
    wr_epoch := st.hi_epoch }

/-- A store mutation or peer RPC issued while processing one stripe, in
program order.  Remote *reads* (`dsc_obj_fetch`) are not store
mutations and are not recorded. -/
inductive AggAction where
  | vosRemove (recx : Recx) (eprLo eprHi : Nat)
  | vosWrite (recxs : List Recx) (epoch : Nat)
  | peerParityRpc (rpc : PeerUpdateRpc)
  | repRpc (recxs : List Recx) (epoch : Nat)
deriving Repr, DecidableEq

/-- The re-replication recx array built by `agg_process_holes_ult`
(`asu_recxs`): gaps between consecutive buffered extents, tracked with
the running `last_ext_end` accumulator, plus the trailing gap.  The
C expressions are kept verbatim (including
`ss + k*len - (k*len - last_ext_end)` for the trailing `rx_nr`). -/
def holes_gap_recxs (oca : Oca) (st : AggStripe) : List Recx :=
  let ss := st.stripenum * oca.k * oca.len
  let s := st.dextents.foldl
    (fun (s : Nat × List Recx) ext =>
      let s2 := if ext.recx.rx_idx - ss > s.1 then
          (s.1, s.2 ++ [Recx.mk (ss + s.1) (ext.recx.rx_idx - ss - s.1)])
        else s
      (s2.1 + (ext.recx.rx_idx + ext.recx.rx_nr - ss), s2.2))
    (0, [])
  if s.1 < oca.k * oca.len then
    s.2 ++ [Recx.mk (ss + s.1) (ss + oca.k * oca.len - (oca.k * oca.len - s.1))]
  else s.2

/-- `agg_process_holes` (with its offloaded ULT): the ULT fetches the gap
bytes remotely and, if that fetch succeeded, sends the `EC_REPLICATE`
RPC; back on the driver the ULT status is overwritten by the
unconditional local VOS write of the gap bytes at `hi_epoch`, and on its
success the local parity extent for the stripe is removed. -/
def agg_process_holes (oca : Oca) (env : Env) (st : AggStripe) :
    Int × List AggAction :=
  let gaps := holes_gap_recxs oca st
  let ultActs : List AggAction :=
    if env.hfetch_rc = 0 then [AggAction.repRpc gaps st.hi_epoch] else []
  let acts := ultActs ++ [AggAction.vosWrite gaps st.hi_epoch]
  if env.hupdate_rc ≠ 0 then (env.hupdate_rc, acts)
  else (env.hremove_rc,
        acts ++ [AggAction.vosRemove
          (Recx.mk (Nat.lor (st.stripenum * oca.len) PARITY_INDICATOR) oca.len)
          0 st.hi_epoch])

/-- The parity-probe epoch as `agg_process_stripe` sees it:
`ape_epoch` is pre-set to `~0ULL` and overwritten by the recx-iterator
callback when a parity extent is found. -/
def agg_probe_epoch : Option ParExtent → Nat
  | none => UINT64_MAX
  | some pe => pe.epoch

/-- The decision block of `agg_process_stripe` (its body up to `out:`):
returns `(rc, update_vos, process_holes)`. -/
def agg_process_stripe_decision (oca : Oca) (env : Env) (st : AggStripe)
    (ape_epoch : Nat) : Int × Bool × Bool :=
  if ape_epoch ≥ st.hi_epoch ∧ ape_epoch ≠ UINT64_MAX then
    (0, false, false)
  else if (ape_epoch = UINT64_MAX ∧
            agg_stripe_is_filled oca st ape_epoch false = true) ∨
          agg_stripe_is_filled oca st ape_epoch true = true then
    (agg_encode_local_parity_rc env, true, false)
  else if ape_epoch = UINT64_MAX then
    (0, false, false)
  else if st.has_holes = true then
    (0, true, true)
  else
    (agg_process_partial_stripe_rc oca env st, true, false)

/-- The `out:` block of `agg_process_stripe`: the holes path, or the
commit (set `as_suffix_ext`, peer parity write when `p > 1`, then
`agg_update_vos`), or nothing.  Returns the final `rc`, the actions
issued, and the stripe state just before `agg_clear_extents`. -/
def agg_process_stripe_out (oca : Oca) (rsize : Nat) (env : Env)
    (st : AggStripe) (rc : Int) (update_vos process_holes : Bool) :
    Int × List AggAction × AggStripe :=
  if process_holes = true ∧ rc = 0 then
    let h := agg_process_holes oca env st
    (h.1, h.2, st)
  else if update_vos = true ∧ rc = 0 then
    let st' := { st with suffix_ext := agg_get_carry_under oca st.dextents }
    let peerActs : List AggAction :=
      if oca.p > 1 then [AggAction.peerParityRpc (agg_peer_update_ult oca rsize st')]
      else []
    let rc1 : Int := if oca.p > 1 then env.peer_rc else 0
    if rc1 ≠ 0 then (rc1, peerActs, st')
    else
      let u := agg_update_vos oca st'
      (env.vupdate_rc,
       peerActs ++ [AggAction.vosRemove u.rm_recx u.rm_epr_lo u.rm_epr_hi,
                    AggAction.vosWrite [u.wr_recx] u.wr_epoch],
       st')
  else (rc, [], st)

/-- `agg_process_stripe`: probe result → decision → `out:` block →
`agg_clear_extents`.  Returns the `rc` handed back to the caller, the
store mutations and peer RPCs issued (in order), and the cleared open
stripe.  The probe's own `vos_iterate` is assumed to succeed; its result
is the `probe` argument. -/
def agg_process_stripe (oca : Oca) (rsize : Nat) (env : Env)
    (st : AggStripe) (probe : Option ParExtent) :
    Int × List AggAction × AggStripe :=
  let ape_epoch := agg_probe_epoch probe
  let d := agg_process_stripe_decision oca env st ape_epoch
  let o := agg_process_stripe_out oca rsize env st d.1 d.2.1 d.2.2
  (o.1, o.2.1, agg_clear_extents oca o.2.2)

/-- `agg_data_extent`: the recx-iterator callback body.  On a stripe
rotation the previous stripe is processed — its return code is logged
and then overwritten with 0 — and the stripe number advances; the new
extent is then appended and the stripe accounting updated (extent
allocation is assumed to succeed).  Returns the callback's `rc` and the
new stripe state. -/
def agg_data_extent (oca : Oca) (rsize : Nat) (env : Env)
    (probe : Option ParExtent) (st : AggStripe) (e : IterExtent) :
    Int × AggStripe :=
  let st0 :=
    if agg_stripenum oca e.recx.rx_idx ≠ st.stripenum then
      if st.stripenum ≠ UINT64_MAX then
        let cleared := (agg_process_stripe oca rsize env st probe).2.2
        { cleared with stripenum := agg_stripenum oca e.recx.rx_idx }
      else { st with stripenum := agg_stripenum oca e.recx.rx_idx }
    else st
  let newExt : AggExtent := ⟨e.recx, e.epoch, e.hole⟩
  (0,
   { st0 with
     dextents := st0.dextents ++ [newExt]
     offset := if st0.extent_cnt = 0 then
         e.recx.rx_idx - st0.stripenum * oca.len * oca.k
       else st0.offset
     extent_cnt := st0.extent_cnt + 1
     has_holes := st0.has_holes || e.hole
     stripe_fill := if e.hole then st0.stripe_fill
       else st0.stripe_fill + agg_in_stripe oca e.recx
     hi_epoch := if st0.hi_epoch < e.epoch then e.epoch else st0.hi_epoch })

/-- Feeding a list of iterator extents through `agg_data_extent`. -/
def agg_observe_list (oca : Oca) (rsize : Nat) (env : Env)
    (probe : Option ParExtent) (st : AggStripe) (l : List IterExtent) :
    AggStripe :=
  l.foldl (fun s e => (agg_data_extent oca rsize env probe s e).2) st

/-- `agg_akey_post`: at akey exit, process the still-open stripe when it
has extents; the result is returned to the iterator. -/
def agg_akey_post (oca : Oca) (rsize : Nat) (env : Env) (st : AggStripe)
    (probe : Option ParExtent) : Int :=
  if st.extent_cnt ≠ 0 then (agg_process_stripe oca rsize env st probe).1
  else 0

/-- `EC_AGG_CREDITS_MAX` (line 39 of the source). -/
def EC_AGG_CREDITS_MAX : Nat := 1024

/-- From the claim's words (C6): a cell is "fully covered" by a coalesced
replica run `[estart, estart + elen)` iff the run contains the whole
cell `[i*len, (i+1)*len)`. -/
def cell_fully_covered (estart elen i len : Nat) : Bool :=
  decide (estart ≤ i * len) && decide (i * len + len ≤ estart + elen)

/-- Object class `k = 4, p = 1, len = 8` (the spec's running example). -/
def oca41 : Oca := ⟨4, 1, 8⟩

/-- Object class `k = 4, p = 1, len = 512` (used for the credits claim). -/
def oca8 : Oca := ⟨4, 1, 512⟩

/-- Object class `k = 4, p = 2, len = 8` (two parity shards). -/
def oca9 : Oca := ⟨4, 2, 8⟩

/-- A filled stripe 0: one 32-record extent at epoch 10. -/
def st_full : AggStripe := ⟨0, 10, [⟨⟨0, 32⟩, 10, false⟩], 32, 1, 0, 0, 0, false⟩

/-- A partially-filled stripe 0: one 8-record extent at epoch 10. -/
def st_part : AggStripe := ⟨0, 10, [⟨⟨0, 8⟩, 10, false⟩], 8, 1, 0, 0, 0, false⟩

/-- A partially-filled stripe 0: one 4-record extent `[0, 4)` at epoch 12. -/
def st6 : AggStripe := ⟨0, 12, [⟨⟨0, 4⟩, 12, false⟩], 4, 1, 0, 0, 0, false⟩

/-- A committed-state stripe 2 with `prefix_ext = 3`, `suffix_ext = 2`. -/
def st9 : AggStripe := ⟨2, 10, [], 0, 0, 0, 3, 2, false⟩

/-- A committed-state stripe 1 with `prefix_ext = 3`, `suffix_ext = 2`. -/
def st_c2 : AggStripe := ⟨1, 10, [], 0, 0, 0, 3, 2, false⟩

/-- The open stripe right after `agg_reset_entry` (the enclosing
`ec_agg_param` is zero-initialised). -/
def st_reset : AggStripe := ⟨0, 0, [], 0, 0, 0, 0, 0, false⟩

/-- A probed parity extent carrying the sentinel epoch `~0ULL`. -/
def pe_max : ParExtent := ⟨⟨PARITY_INDICATOR, 8⟩, UINT64_MAX⟩

/-- A probed parity extent at epoch 12. -/
def pe12 : ParExtent := ⟨⟨PARITY_INDICATOR, 8⟩, 12⟩

/-- A probed parity extent at epoch 5. -/
def pe5 : ParExtent := ⟨⟨PARITY_INDICATOR, 8⟩, 5⟩

/-- Environment in which the encode offload reports status `-1`. -/
def env_c4 : Env := { env0 with encode_rc := -1 }

/-- Environment in which the remote ODATA fetch fails with `-5`. -/
def env_c5 : Env := { env0 with ofetch_rc := -5 }

/-- An extent spanning records `[30, 34)` (the spec's S6 scenario). -/
def ext3034 : AggExtent := ⟨⟨30, 4⟩, 10, false⟩

/-- An extent spanning records `[29, 34)`: 3 records in stripe 0, 2 in
stripe 1. -/
def ext2934 : AggExtent := ⟨⟨29, 5⟩, 10, false⟩

/-- An iterator extent in stripe 1 (forces a rotation away from
stripe 0). -/
def e_rot : IterExtent := ⟨⟨32, 1⟩, 11, false⟩

/-- 1025 disjoint one-record iterator extents, all inside stripe 0 of
`oca8` (whose stripe spans 2048 records). -/
def c8_exts : List IterExtent := (List.range 1025).map (fun i => ⟨⟨i, 1⟩, 1, false⟩)

/-- C1 (amended): when the parity probe finds a local parity extent whose
epoch is at least the stripe's `hi_epoch` and is not the reserved
sentinel `~0ULL`, `agg_process_stripe` issues no store writes, no store
removals and no peer RPCs: it returns 0 and only clears the open
stripe. -/
theorem c1_parity_supersedence_amended (oca : Oca) (rsize : Nat) (env : Env)
    (st : AggStripe) (pe : ParExtent)
    (h1 : st.hi_epoch ≤ pe.epoch) (h2 : pe.epoch ≠ UINT64_MAX) :
    agg_process_stripe oca rsize env st (some pe) =
      (0, [], agg_clear_extents oca st) := by
  have hd : agg_process_stripe_decision oca env st pe.epoch = (0, false, false) := by
    unfold agg_process_stripe_decision
    rw [if_pos]
    exact ⟨h1, h2⟩
  simp only [agg_process_stripe, agg_probe_epoch, hd]
  simp [agg_process_stripe_out]

/-- C1 witness: a concrete instance of the amended no-op theorem
(parity at epoch 12 over a stripe with `hi_epoch = 10`). -/
theorem c1_parity_supersedence_witness :
    st_full.hi_epoch ≤ pe12.epoch ∧ pe12.epoch ≠ UINT64_MAX ∧
    agg_process_stripe oca41 1 env0 st_full (some pe12) =
      (0, [], agg_clear_extents oca41 st_full) :=
  ⟨by decide, by decide,
   c1_parity_supersedence_amended oca41 1 env0 st_full pe12 (by decide) (by decide)⟩

/-- C1 counterexample: a probed parity extent whose epoch is the sentinel
`~0ULL` satisfies the claim's premise (its epoch is ≥ `hi_epoch`), yet
`agg_process_stripe` treats it as "no parity", encodes the filled stripe
and issues the data removal and the parity write. -/
theorem c1_parity_supersedence_counterexample :
    agg_probe_epoch (some pe_max) ≥ st_full.hi_epoch ∧
    (agg_process_stripe oca41 1 env0 st_full (some pe_max)).2.1 ≠ [] := by decide

/-- C2: on commit, the data range removed by `agg_update_vos` is exactly
`[stripenum*k*len - prefix_ext, stripenum*k*len + k*len - suffix_ext)`
over epochs `[0, hi_epoch]`, and the new parity cell of `len` records is
written at index `(stripenum*len) | PARITY_INDICATOR` at epoch
`hi_epoch`.  The hypotheses record that the stored `prefix_ext` and
`suffix_ext` lie in range (the C arithmetic is unsigned). -/
theorem c2_commit_ranges (oca : Oca) (st : AggStripe)
    (h1 : st.prefix_ext ≤ st.stripenum * oca.k * oca.len)
    (h2 : st.suffix_ext ≤ oca.k * oca.len) :
    (agg_update_vos oca st).rm_recx.rx_idx
        = st.stripenum * oca.k * oca.len - st.prefix_ext ∧
    (agg_update_vos oca st).rm_recx.rx_idx + (agg_update_vos oca st).rm_recx.rx_nr
        = st.stripenum * oca.k * oca.len + oca.k * oca.len - st.suffix_ext ∧
    (agg_update_vos oca st).rm_epr_lo = 0 ∧
    (agg_update_vos oca st).rm_epr_hi = st.hi_epoch ∧
    (agg_update_vos oca st).wr_recx
        = ⟨Nat.lor (st.stripenum * oca.len) PARITY_INDICATOR, oca.len⟩ ∧
    (agg_update_vos oca st).wr_epoch = st.hi_epoch := by
  refine ⟨rfl, ?_, rfl, rfl, rfl, rfl⟩
  simp only [agg_update_vos]
  omega

/-- C2 witness: the commit ranges at a concrete stripe
(`stripenum = 1, k = 4, len = 8, prefix_ext = 3, suffix_ext = 2`). -/
theorem c2_commit_ranges_witness :
    st_c2.prefix_ext ≤ st_c2.stripenum * oca41.k * oca41.len ∧
    st_c2.suffix_ext ≤ oca41.k * oca41.len ∧
    ((agg_update_vos oca41 st_c2).rm_recx.rx_idx
        = st_c2.stripenum * oca41.k * oca41.len - st_c2.prefix_ext ∧
     (agg_update_vos oca41 st_c2).rm_recx.rx_idx
        + (agg_update_vos oca41 st_c2).rm_recx.rx_nr
        = st_c2.stripenum * oca41.k * oca41.len + oca41.k * oca41.len
            - st_c2.suffix_ext ∧
     (agg_update_vos oca41 st_c2).rm_epr_lo = 0 ∧
     (agg_update_vos oca41 st_c2).rm_epr_hi = st_c2.hi_epoch ∧
     (agg_update_vos oca41 st_c2).wr_recx
        = ⟨Nat.lor (st_c2.stripenum * oca41.len) PARITY_INDICATOR, oca41.len⟩ ∧
     (agg_update_vos oca41 st_c2).wr_epoch = st_c2.hi_epoch) :=
  ⟨by decide, by decide, c2_commit_ranges oca41 st_c2 (by decide) (by decide)⟩

/-- Helper for C3: `agg_get_carry_under` returns `rx_nr - tail` of the
first extent with a non-zero carry-over tail. -/
theorem agg_get_carry_under_first (oca : Oca) (ext : AggExtent)
    (post : List AggExtent) (hne : agg_carry_over oca ext ≠ 0) :
    ∀ pre : List AggExtent, (∀ e ∈ pre, agg_carry_over oca e = 0) →
      agg_get_carry_under oca (pre ++ ext :: post)
        = ext.recx.rx_nr - agg_carry_over oca ext := by
  intro pre
  induction pre with
  | nil =>
    intro _
    simp [agg_get_carry_under, hne]
  | cons p ps ih =>
    intro hp
    have hp0 : agg_carry_over oca p = 0 := hp p (by simp)
    simp only [List.cons_append, agg_get_carry_under, hp0]
    simp only [ne_eq, not_true_eq_false, if_false]
    exact ih (fun e he => hp e (by simp [he]))

/-- C3 (amended): before commit `as_suffix_ext` is set to
`agg_get_carry_under`, which is 0 when no buffered extent carries over,
and otherwise equals the carry-over extent's length minus its
carried-over tail — that is, the number of that extent's records lying
in the *current* stripe, not in the next one. -/
theorem c3_suffix_ext_amended (oca : Oca) (l : List AggExtent) :
    ((∀ e ∈ l, agg_carry_over oca e = 0) → agg_get_carry_under oca l = 0) ∧
    (∀ pre ext post, l = pre ++ ext :: post →
       (∀ e ∈ pre, agg_carry_over oca e = 0) →
       agg_carry_over oca ext ≠ 0 →
       agg_get_carry_under oca l
         = ext.recx.rx_nr - agg_carry_over oca ext) := by
  constructor
  · intro h
    induction l with
    | nil => rfl
    | cons p ps ih =>
      have hp0 : agg_carry_over oca p = 0 := h p (by simp)
      simp only [agg_get_carry_under, hp0]
      simp only [ne_eq, not_true_eq_false, if_false]
      exact ih (fun e he => h e (by simp [he]))
  · intro pre ext post hl hpre hne
    subst hl
    exact agg_get_carry_under_first oca ext post hne pre hpre

/-- C3 witness: the spec's S6 extent `[30, 34)` (where head and tail both
have 2 records): the computed suffix is `4 - 2 = 2`. -/
theorem c3_suffix_ext_witness :
    agg_carry_over oca41 ext3034 ≠ 0 ∧
    agg_get_carry_under oca41 [ext3034]
      = ext3034.recx.rx_nr - agg_carry_over oca41 ext3034 :=
  ⟨by decide,
   (c3_suffix_ext_amended oca41 [ext3034]).2 [] ext3034 [] rfl (by simp)
     (by decide)⟩

/-- C3 counterexample: for the extent `[29, 34)` with `k*len = 32`, the
number of records lying in the next stripe is `agg_carry_over = 2`, but
the code sets the suffix to `agg_get_carry_under = 5 - 2 = 3` — the head
records retained in the current stripe — refuting the claim's "number of
that extent's records lying in the next stripe". -/
theorem c3_suffix_ext_counterexample :
    agg_carry_over oca41 ext2934 = 2 ∧
    agg_get_carry_under oca41 [ext2934] = 3 ∧
    agg_get_carry_under oca41 [ext2934] ≠ agg_carry_over oca41 ext2934 := by
  decide

/-- C4: the encode offload of the full-stripe path reports status `-1`
(`agg_encode_full_stripe` returns it), yet `agg_encode_local_parity`
discards that status and `agg_process_stripe` returns 0 and performs the
commit — the data-range removal and the parity write — instead of
aborting the stripe. -/
theorem c4_codec_error_ignored :
    agg_encode_full_stripe_rc env_c4 = -1 ∧
    agg_encode_local_parity_rc env_c4 = 0 ∧
    (agg_process_stripe oca41 1 env_c4 st_full none).1 = 0 ∧
    (agg_process_stripe oca41 1 env_c4 st_full none).2.1 =
      [AggAction.vosRemove ⟨0, 32⟩ 0 10,
       AggAction.vosWrite [⟨PARITY_INDICATOR, 8⟩] 10] := by decide

/-- C5 (amended): the extent-path rotation returns 0 to the iterator even
when processing the previous stripe failed, but the akey-exit path
returns `agg_process_stripe`'s status to the iterator unchanged, so a
per-stripe failure there does surface to the iteration. -/
theorem c5_abort_propagation_amended (oca : Oca) (rsize : Nat) (env : Env)
    (probe : Option ParExtent) (st : AggStripe) (e : IterExtent)
    (_hrot : agg_stripenum oca e.recx.rx_idx ≠ st.stripenum)
    (hcnt : st.extent_cnt ≠ 0) :
    (agg_data_extent oca rsize env probe st e).1 = 0 ∧
    agg_akey_post oca rsize env st probe
      = (agg_process_stripe oca rsize env st probe).1 := by
  refine ⟨rfl, ?_⟩
  simp [agg_akey_post, hcnt]

/-- C5 witness: a concrete rotation out of a non-empty failing stripe;
the extent path returns 0, the akey path returns the stripe's status. -/
theorem c5_abort_propagation_witness :
    agg_stripenum oca41 e_rot.recx.rx_idx ≠ st_part.stripenum ∧
    st_part.extent_cnt ≠ 0 ∧
    ((agg_data_extent oca41 1 env_c5 (some pe5) st_part e_rot).1 = 0 ∧
     agg_akey_post oca41 1 env_c5 st_part (some pe5)
       = (agg_process_stripe oca41 1 env_c5 st_part (some pe5)).1) :=
  ⟨by decide, by decide,
   c5_abort_propagation_amended oca41 1 env_c5 (some pe5) st_part e_rot
     (by decide) (by decide)⟩

/-- C5 counterexample: a stripe whose partial-update path fails with `-5`
(remote ODATA fetch) makes `agg_akey_post` return `-5` to the iterator,
refuting the claim that both callback paths return 0 on a per-stripe
abort. -/
theorem c5_abort_propagation_counterexample :
    agg_akey_post oca41 1 env_c5 st_part (some pe5) = -5 ∧
    ((-5 : Int) ≠ 0) := by decide

/-- C6: on the partial-update path with a single buffered extent covering
only records `[0, 4)` of a `k = 4, len = 8` stripe, no cell is fully
covered, so the claim requires `full_cells = 0` and the update strategy;
but the `unsigned int` expression `estart - i*len + elen` in
`agg_full_cells` wraps for every cell starting beyond the extent, so the
code counts cells 1, 2 and 3 (bitmap 14) as "full", gets
`full_cells = 3 > k/2` and picks recalc — with a bitmap that excludes
cell 0, the only cell any extent overlaps. -/
theorem c6_full_cells_bug :
    agg_choose_strategy oca41 st6 = (true, 14, 3) ∧
    (List.range oca41.k).countP
        (fun i => cell_fully_covered st6.offset 4 i oca41.len) = 0 ∧
    agg_overlap ⟨0, 4⟩ 0 oca41.k oca41.len st6.stripenum = true ∧
    Nat.testBit 14 0 = false := by decide

/-- C7: the remote ODATA fetch issued after strategy selection reads at
the stripe's `hi_epoch` when the recalc strategy was chosen and at the
parity extent's epoch when the update strategy was chosen. -/
theorem c7_odata_epoch (oca : Oca) (st : AggStripe) (ape_epoch : Nat) :
    (agg_fetch_odata_cells oca st ape_epoch (agg_choose_strategy oca st).2.1
        (agg_choose_strategy oca st).1).epoch
      = if (agg_choose_strategy oca st).1 then st.hi_epoch else ape_epoch := rfl

/-- Helper for C8: observing an extent of the currently open stripe never
rotates; it increments `as_extent_cnt` by one and leaves `as_stripenum`
unchanged. -/
theorem agg_data_extent_same_stripe (oca : Oca) (rsize : Nat) (env : Env)
    (probe : Option ParExtent) (st : AggStripe) (e : IterExtent)
    (h : agg_stripenum oca e.recx.rx_idx = st.stripenum) :
    (agg_data_extent oca rsize env probe st e).2.stripenum = st.stripenum ∧
    (agg_data_extent oca rsize env probe st e).2.extent_cnt
      = st.extent_cnt + 1 := by
  simp [agg_data_extent, h]

/-- Helper for C8: feeding a list of extents, all of the open stripe,
grows `as_extent_cnt` by the list length with no bound. -/
theorem agg_observe_list_cnt (oca : Oca) (rsize : Nat) (env : Env)
    (probe : Option ParExtent) :
    ∀ (l : List IterExtent) (st : AggStripe),
      (∀ e ∈ l, agg_stripenum oca e.recx.rx_idx = st.stripenum) →
      (agg_observe_list oca rsize env probe st l).stripenum = st.stripenum ∧
      (agg_observe_list oca rsize env probe st l).extent_cnt
        = st.extent_cnt + l.length := by
  intro l
  induction l with
  | nil =>
    intro st _
    exact ⟨rfl, by simp [agg_observe_list]⟩
  | cons x xs ih =>
    intro st h
    have hx := agg_data_extent_same_stripe oca rsize env probe st x (h x (by simp))
    have hxs := ih ((agg_data_extent oca rsize env probe st x).2)
      (fun e he => by rw [hx.1]; exact h e (by simp [he]))
    simp only [agg_observe_list, List.foldl_cons] at hxs ⊢
    refine ⟨by rw [hxs.1, hx.1], ?_⟩
    rw [hxs.2, hx.2, List.length_cons]
    omega

/-- C8: `EC_AGG_CREDITS_MAX` is defined but never consulted: 1025
one-record extents of a single open stripe (stripe 0 of a
`k = 4, len = 512` class, which spans 2048 records) are all accumulated,
driving `as_extent_cnt` to 1025, strictly above the claimed cap of
1024, with the stripe still open. -/
theorem c8_credits_unenforced :
    EC_AGG_CREDITS_MAX <
      (agg_observe_list oca8 1 env0 none st_reset c8_exts).extent_cnt := by
  have h := (agg_observe_list_cnt oca8 1 env0 none c8_exts st_reset ?_).2
  · rw [h]
    simp [c8_exts, st_reset, EC_AGG_CREDITS_MAX]
  · intro e he
    simp only [c8_exts, List.mem_map, List.mem_range] at he
    obtain ⟨i, hi, rfl⟩ := he
    show agg_stripenum oca8 i = st_reset.stripenum
    simp only [agg_stripenum, obj_ec_stripe_rec_nr, oca8, st_reset]
    exact Nat.div_eq_of_lt (by omega)

/-- C9: with `rsize = 2` (so `cell_bytes = len * rsize = 16`), the
`EC_AGGREGATE` request built by `agg_peer_update_ult` carries
`prior_len = prefix_ext` and `after_len = suffix_ext` and a bulk of
`cell_bytes` bytes, but points the bulk at byte offset `len = 8` of the
parity buffer instead of at the peer cell's offset
`parity_cell_offset 1 = cell_bytes = 16`: the `* rsize` factor is
missing from `&buf[entry->ae_oca->u.ec.e_len]`. -/
theorem c9_peer_bulk_offset_bug :
    (agg_peer_update_ult oca9 2 st9).prior_len = st9.prefix_ext ∧
    (agg_peer_update_ult oca9 2 st9).after_len = st9.suffix_ext ∧
    (agg_peer_update_ult oca9 2 st9).bulk_len = oca9.len * 2 ∧
    parity_cell_offset oca9 2 1 = 16 ∧
    (agg_peer_update_ult oca9 2 st9).bulk_off = 8 ∧
    (agg_peer_update_ult oca9 2 st9).bulk_off ≠ parity_cell_offset oca9 2 1 := by
  decide

/-- Helper for C10: one clearing step ORs the extent's hole flag into the
accumulator. -/
theorem clear_step_hole (oca : Oca) (s : ClearState) (ext : AggExtent) :
    (clear_step oca s ext).carry_is_hole = (s.carry_is_hole || ext.hole) := by
  simp only [clear_step]
  split <;> rfl

/-- Helper for C10: the clearing fold's hole accumulator is the OR of the
initial value with the hole flags of all extents. -/
theorem clear_fold_hole (oca : Oca) :
    ∀ (l : List AggExtent) (s : ClearState),
      (l.foldl (clear_step oca) s).carry_is_hole
        = (s.carry_is_hole || l.any (fun e => e.hole)) := by
  intro l
  induction l with
  | nil => intro s; simp
  | cons x xs ih =>
    intro s
    simp only [List.foldl_cons, List.any_cons]
    rw [ih, clear_step_hole, Bool.or_assoc]

/-- C10: after `agg_clear_extents`, the new open stripe's `as_has_holes`
is true iff some extent of the just-closed stripe was a hole —
regardless of whether the carry-over extent (if any) is the hole. -/
theorem c10_has_holes_carry (oca : Oca) (st : AggStripe) :
    (agg_clear_extents oca st).has_holes
      = st.dextents.any (fun e => e.hole) := by
  simp only [agg_clear_extents]
  rw [clear_fold_hole]
  simp
